import Mathlib

/-!
Shallow embedding of the message-type layer of the `variant` repository
(`variant_topic_tools/src/MessageType.cpp`), together with theorems about
its resolution algorithm, validity predicate, equality operators and the
publish/subscribe binding.

The embedding follows the C++ source closely:

* `MessageType` mirrors the three string fields `dataType`, `md5Sum`
  (the compatibility signature) and `definition`.
* `Env` packages the external collaborators the resolver calls out to:
  `ros::package::getPath`, the filesystem read, the two line recognizers of
  `MessageDefinitionParser`, and the registry's builtin classification.
* `MessageType.load` is `MessageType::load`, written as a fuel-indexed
  loop (`loadLoop`) over the FIFO work queue; `none` means the fuel ran
  out before the queue emptied.  The loop additionally reports, as ghost
  observations, the ordered list of processed type identifiers and the
  ordered list of `(identifier, raw text)` blocks appended to the
  accumulated definition; these extra components do not influence the
  computed state.
-/

namespace VariantTopicTools

/-- Mirror of the C++ `MessageType` value object: the fields `dataType`,
`md5Sum` and `definition` of `MessageType.h`. -/
structure MessageType where
  dataType : String
  md5Sum : String
  definition : String
deriving Repr, DecidableEq

/-- `MessageType::isValid`: `!md5Sum.empty() && ((md5Sum == "*") ||
(md5Sum.length() == 32)) && !dataType.empty() && !definition.empty()`. -/
def MessageType.isValid (m : MessageType) : Bool :=
  !m.md5Sum.isEmpty && (m.md5Sum == "*" || m.md5Sum.length == 32) &&
    !m.dataType.isEmpty && !m.definition.isEmpty

/-- `MessageType::clear`: resets the fields to `("", "*", "")`. -/
def MessageType.clear (_m : MessageType) : MessageType :=
  { dataType := "", md5Sum := "*", definition := "" }

/-- `MessageType::operator==`: compares `dataType` and `md5Sum` only. -/
def MessageType.beq (a b : MessageType) : Bool :=
  a.dataType == b.dataType && a.md5Sum == b.md5Sum

/-- `MessageType::operator!=`: `(dataType != type.dataType) || (md5Sum !=
type.md5Sum)`. -/
def MessageType.bne (a b : MessageType) : Bool :=
  a.dataType != b.dataType || a.md5Sum != b.md5Sum

/-- Data carried by a bound `Publisher::Impl` (transport handle and
callback are external and not modelled). -/
structure PublisherImpl where
  messageType : MessageType
  topic : String
  queueSize : Nat
  latch : Bool

/-- Mirror of `Publisher`: a handle that is bound iff `impl` is set. -/
structure Publisher where
  impl : Option PublisherImpl

/-- Data carried by a bound `Subscriber::Impl`. -/
structure SubscriberImpl where
  messageType : MessageType
  topic : String
  queueSize : Nat

/-- Mirror of `Subscriber`: a handle that is bound iff `impl` is set. -/
structure Subscriber where
  impl : Option SubscriberImpl

/-- `MessageType::advertise`: resets the publisher implementation only when
`isValid()` holds; otherwise the returned handle stays unbound. -/
def MessageType.advertise (m : MessageType) (topic : String)
    (queueSize : Nat) (latch : Bool) : Publisher :=
  if m.isValid then
    { impl := some { messageType := m, topic := topic,
                     queueSize := queueSize, latch := latch } }
  else
    { impl := none }

/-- `MessageType::subscribe`: always resets the subscriber implementation,
with no validity check. -/
def MessageType.subscribe (m : MessageType) (topic : String)
    (queueSize : Nat) : Subscriber :=
  { impl := some { messageType := m, topic := topic,
                   queueSize := queueSize } }

/-- External collaborators of `MessageType::load`:
`packagePath` is `ros::package::getPath` (empty string means the package was
not found); `readFile` is the `std::ifstream` read (`none` means the file
could not be opened); `matchArray` and `matchPlain` are
`MessageDefinitionParser::matchArray` and `MessageDefinitionParser::match`,
returning the extracted `(memberName, memberType, memberSize)` resp.
`(memberName, memberType)` on success; `isBuiltin` is
`registry.getDataType(t).isBuiltin()`. -/
structure Env where
  packagePath : String → String
  readFile : String → Option String
  matchArray : String → Option (String × String × Nat)
  matchPlain : String → Option (String × String)
  isBuiltin : String → Bool

/-- The exceptions `MessageType::load` can throw. -/
inductive LoadError where
  | invalidMessageType (t : String)
  | invalidDataType
  | packageNotFound (package : String)
  | fileOpen (filename : String)
deriving Repr, DecidableEq

/-- Result of a terminating `MessageType::load` run: either normal return
with the final object state, or an escaped exception together with the
object state left behind at the throw. -/
inductive LoadOutcome where
  | ok (m : MessageType)
  | err (e : LoadError) (m : MessageType)
deriving Repr, DecidableEq

/-- The object state an outcome leaves behind. -/
def LoadOutcome.state : LoadOutcome → MessageType
  | .ok m => m
  | .err _ m => m

/-- Index of the first `'/'` in a character list, mirroring
`std::string::find_first_of('/')` (`none` for `npos`). -/
def findFirstSlash : List Char → Option Nat
  | [] => none
  | c :: rest =>
    if c == '/' then some 0 else (findFirstSlash rest).map (· + 1)

/-- The package/type split of `MessageType::load`: the identifier is split
at the first `'/'` only when that separator occurs at a position greater
than zero; otherwise the package is left empty and the type is the whole
identifier. -/
def splitType (currentType : String) : String × String :=
  match findFirstSlash currentType.toList with
  | some i =>
    if 0 < i then
      (String.mk (currentType.toList.take i),
       String.mk (currentType.toList.drop (i + 1)))
    else
      ("", currentType)
  | none => ("", currentType)

/-- Steps b-d of one loop iteration of `MessageType::load`: split the
identifier, apply the `"Header"` alias, resolve the package path and read
the message file, producing the raw definition text or the thrown error. -/
def resolveType (env : Env) (currentType : String) : Except LoadError String :=
  let pt := splitType currentType
  if pt.1.isEmpty && pt.2 != "Header" then
    .error (.invalidMessageType currentType)
  else
    let package := if pt.1.isEmpty then "std_msgs" else pt.1
    if pt.2.isEmpty then
      .error .invalidDataType
    else
      let packagePath := env.packagePath package
      if packagePath.isEmpty then
        .error (.packageNotFound package)
      else
        let messageFilename := packagePath ++ "/msg/" ++ pt.2 ++ ".msg"
        match env.readFile messageFilename with
        | none => .error (.fileOpen messageFilename)
        | some messageDefinition => .ok messageDefinition

/-- Helper of `getLines`, mirroring repeated `std::getline` on an
`std::istringstream`: lines are cut at `'\n'`, the terminator is dropped,
and a trailing `'\n'` does not produce an extra empty line. -/
def getLinesAux : List Char → List Char → List String
  | [], acc => [String.mk acc.reverse]
  | '\n' :: [], acc => [String.mk acc.reverse]
  | '\n' :: c :: rest, acc => String.mk acc.reverse :: getLinesAux (c :: rest) []
  | c :: rest, acc => getLinesAux rest (c :: acc)

/-- The lines `std::getline` yields on the given text (no lines on empty
input). -/
def getLines (s : String) : List String :=
  if s.isEmpty then [] else getLinesAux s.toList []

/-- The member type a definition line declares:
`MessageDefinitionParser::matchArray` is tried first, then
`MessageDefinitionParser::match`; `none` when neither shape matches. -/
def memberTypeOfLine (env : Env) (line : String) : Option String :=
  match env.matchArray line with
  | some r => some r.2.1
  | none =>
    match env.matchPlain line with
    | some r => some r.2
    | none => none

/-- Step e of one loop iteration of `MessageType::load`: scan the loaded
text line by line; each recognized member type (with a bare `"Header"`
normalized to `"std_msgs/Header"`) that is neither builtin nor already in
the discovery set is appended to the set and to the back of the queue. -/
def scanLines (env : Env) :
    List String → List String → List String → List String × List String
  | [], required, queue => (required, queue)
  | line :: rest, required, queue =>
    match memberTypeOfLine env line with
    | none => scanLines env rest required queue
    | some t0 =>
      let t := if t0 == "Header" then "std_msgs/Header" else t0
      if !env.isBuiltin t && !required.contains t then
        scanLines env rest (required ++ [t]) (queue ++ [t])
      else
        scanLines env rest required queue

/-- The separator `MessageType::load` places before every block after the
first: a newline, an 80-character rule line of `'='`, a newline, then
`"MSG: "` plus the current type, then a newline. -/
def sepBlock (currentType : String) : String :=
  "\n" ++ String.mk (List.replicate 80 '=') ++ "\n" ++
    ("MSG: " ++ currentType ++ "\n")

/-- The `while (!requiredTypesInOrder.empty())` loop of
`MessageType::load`, indexed by fuel (`none` = fuel exhausted).  Besides
the outcome it returns the ordered list of identifiers whose iteration
completed and the ordered list of `(identifier, raw text)` blocks appended
to the accumulated definition. -/
def loadLoop (env : Env) :
    Nat → List String → List String → MessageType →
    Option (LoadOutcome × List String × List (String × String))
  | 0, _, _, _ => none
  | _ + 1, _, [], m => some (.ok m, [], [])
  | fuel + 1, required, currentType :: restQueue, m =>
    match resolveType env currentType with
    | .error e => some (.err e m, [], [])
    | .ok messageDefinition =>
      if messageDefinition.isEmpty then
        match loadLoop env fuel required restQueue m with
        | none => none
        | some (out, proc, em) => some (out, currentType :: proc, em)
      else
        let rq := scanLines env (getLines messageDefinition) required restQueue
        let m' : MessageType :=
          if m.definition.isEmpty then
            { m with definition := messageDefinition }
          else
            { m with definition :=
                m.definition ++ sepBlock currentType ++ messageDefinition }
        match loadLoop env fuel rq.1 rq.2 m' with
        | none => none
        | some (out, proc, em) =>
          some (out, currentType :: proc,
                (currentType, messageDefinition) :: em)

/-- `MessageType::load`: clear the object, run the discovery loop seeded
with the requested identifier, and on normal return set `dataType` to the
root identifier when the accumulated definition is non-empty. -/
def MessageType.load (env : Env) (fuel : Nat) (m : MessageType)
    (messageDataType : String) :
    Option (LoadOutcome × List String × List (String × String)) :=
  let m0 := m.clear
  match loadLoop env fuel [messageDataType] [messageDataType] m0 with
  | none => none
  | some (.err e m', proc, em) => some (.err e m', proc, em)
  | some (.ok m', proc, em) =>
    some (.ok (if m'.definition.isEmpty then m'
               else { m' with dataType := messageDataType }), proc, em)

/-- One `definition += ...` step of the loop: the raw text alone when the
accumulator is empty, otherwise the accumulator, the separator for the
block's identifier, then the raw text. -/
def appendBlock (acc : String) (b : String × String) : String :=
  if acc.isEmpty then b.2 else acc ++ sepBlock b.1 ++ b.2

/-- Accumulated definition after appending the given blocks to `acc`. -/
def joinFrom (acc : String) (blocks : List (String × String)) : String :=
  blocks.foldl appendBlock acc

/-- Concatenation of the non-root blocks, each prefixed by its separator. -/
def tailBlocks : List (String × String) → String
  | [] => ""
  | b :: bs => sepBlock b.1 ++ b.2 ++ tailBlocks bs

/-- The concatenated definition: the first block's raw text with no
leading separator, then every further block prefixed by its separator. -/
def joinBlocks : List (String × String) → String
  | [] => ""
  | b :: bs => b.2 ++ tailBlocks bs

/-- Lowercase-hexadecimal test used to state the spec's signature format. -/
def isLowerHexDigit (c : Char) : Bool :=
  c.isDigit || ('a' ≤ c && c ≤ 'f')

/-- Validity as the specification words it (for comparison with the code's
`MessageType.isValid`): the signature must be the wildcard or exactly 32
lowercase hexadecimal characters. -/
def specIsValid (m : MessageType) : Bool :=
  !m.md5Sum.isEmpty &&
    (m.md5Sum == "*" ||
      (m.md5Sum.length == 32 && m.md5Sum.toList.all isLowerHexDigit)) &&
    !m.dataType.isEmpty && !m.definition.isEmpty

def envC : Env where
  packagePath := fun p => if p == "pkg" then "/p" else ""
  readFile := fun f => if f == "/p/msg/A.msg" then some "other/B x\n" else none
  matchArray := fun _ => none
  matchPlain := fun line =>
    if line == "other/B x" then some ("x", "other/B") else none
  isBuiltin := fun _ => false

def envD : Env where
  packagePath := fun p => if p == "pkg" then "/p" else ""
  readFile := fun f =>
    if f == "/p/msg/A.msg" then some "pkg/B x\npkg/B y\n"
    else if f == "/p/msg/B.msg" then some "int32 z\n" else none
  matchArray := fun _ => none
  matchPlain := fun line =>
    if line == "pkg/B x" then some ("x", "pkg/B")
    else if line == "pkg/B y" then some ("y", "pkg/B")
    else if line == "int32 z" then some ("z", "int32") else none
  isBuiltin := fun t => t == "int32"

def envE : Env where
  packagePath := fun p => if p == "pkg" then "/p" else ""
  readFile := fun f => if f == "/p/msg/A.msg" then some "int32 x\n" else none
  matchArray := fun _ => none
  matchPlain := fun _ => none
  isBuiltin := fun _ => false

def defD : String := "pkg/B x\npkg/B y\n" ++ sepBlock "pkg/B" ++ "int32 z\n"

def md5NonHex : String := String.mk (List.replicate 32 'z')


/-- The character data of a concatenation is the concatenation of the
character data. -/
theorem string_data_append (a b : String) : (a ++ b).data = a.data ++ b.data := rfl

/-- A string with empty character data is the empty string. -/
theorem string_eq_empty_of_data {s : String} (h : s.data = []) : s = "" := by
  cases s with
  | mk d => cases h; rfl

/-- Appending to a non-empty string yields a non-empty string. -/
theorem string_append_ne_empty_left {s : String} (t : String) (h : s ≠ "") :
    s ++ t ≠ "" := by
  intro hc
  apply h
  have hd : (s ++ t).data = [] := by rw [hc]
  rw [string_data_append] at hd
  exact string_eq_empty_of_data (List.append_eq_nil.mp hd).1

/-- Scanning definition lines only ever appends a duplicate-free batch of
identifiers, all previously absent from the discovery set, to both the set
and the queue. -/
theorem scanLines_spec (env : Env) :
    ∀ (lines required queue : List String),
      ∃ news : List String,
        (scanLines env lines required queue).1 = required ++ news ∧
        (scanLines env lines required queue).2 = queue ++ news ∧
        news.Nodup ∧ ∀ t ∈ news, t ∉ required := by
  intro lines
  induction lines with
  | nil =>
    intro required queue
    exact ⟨[], by simp [scanLines]⟩
  | cons line rest ih =>
    intro required queue
    cases hm : memberTypeOfLine env line with
    | none =>
      simpa [scanLines, hm] using ih required queue
    | some t0 =>
      simp only [scanLines, hm]
      cases hcond : (!env.isBuiltin (if t0 == "Header" then "std_msgs/Header" else t0) &&
          !required.contains (if t0 == "Header" then "std_msgs/Header" else t0)) with
      | false =>
        simpa [hcond] using ih required queue
      | true =>
        simp only [hcond, if_true]
        obtain ⟨news', h1, h2, h3, h4⟩ :=
          ih (required ++ [if t0 == "Header" then "std_msgs/Header" else t0])
             (queue ++ [if t0 == "Header" then "std_msgs/Header" else t0])
        refine ⟨(if t0 == "Header" then "std_msgs/Header" else t0) :: news', ?_, ?_, ?_, ?_⟩
        · rw [h1]; simp
        · rw [h2]; simp
        · refine List.nodup_cons.mpr ⟨?_, h3⟩
          intro hmem
          exact h4 _ hmem (List.mem_append_right _ (by simp))
        · intro u hu
          rcases List.mem_cons.mp hu with rfl | hu'
          · have := (Bool.and_eq_true _ _).mp hcond
            have hnc : required.contains
                (if t0 == "Header" then "std_msgs/Header" else t0) = false := by
              rcases this with ⟨-, h⟩
              simpa using h
            simp_all
          · intro hr
            exact h4 _ hu' (List.mem_append_left _ hr)




/-- The discovery loop never writes `dataType` or `md5Sum`: every state it
can leave behind (normal or at a throw) agrees with its input state on both
fields. -/
theorem loadLoop_frame (env : Env) :
    ∀ (fuel : Nat) (required queue : List String) (m : MessageType)
      (out : LoadOutcome) (proc : List String) (em : List (String × String)),
      loadLoop env fuel required queue m = some (out, proc, em) →
      out.state.dataType = m.dataType ∧ out.state.md5Sum = m.md5Sum := by
  intro fuel
  induction fuel with
  | zero => intro _ _ _ _ _ _ h; simp [loadLoop] at h
  | succ n ih =>
    intro required queue m out proc em h
    cases queue with
    | nil =>
      simp only [loadLoop, Option.some.injEq, Prod.mk.injEq] at h
      obtain ⟨h1, -, -⟩ := h
      subst h1
      exact ⟨rfl, rfl⟩
    | cons currentType restQueue =>
      simp only [loadLoop] at h
      split at h
      · simp only [Option.some.injEq, Prod.mk.injEq] at h
        obtain ⟨h1, -, -⟩ := h
        subst h1
        exact ⟨rfl, rfl⟩
      · split at h
        · split at h
          · exact absurd h (by simp)
          · rename_i out' proc' em' heq
            simp only [Option.some.injEq, Prod.mk.injEq] at h
            obtain ⟨h1, -, -⟩ := h
            subst h1
            exact ih _ _ _ _ _ _ heq
        · split at h
          · exact absurd h (by simp)
          · rename_i out' proc' em' heq
            simp only [Option.some.injEq, Prod.mk.injEq] at h
            obtain ⟨h1, -, -⟩ := h
            subst h1
            have hrec := ih _ _ _ _ _ _ heq
            by_cases hd : m.definition.isEmpty <;> simp [hd] at hrec <;>
              exact hrec

/-- Unfolding lemma for `joinFrom`. -/
theorem joinFrom_cons (acc : String) (b : String × String)
    (bs : List (String × String)) :
    joinFrom acc (b :: bs) = joinFrom (appendBlock acc b) bs := rfl

/-- The definition accumulated by the discovery loop is exactly the fold of
`appendBlock` over the emitted blocks, and every emitted block has non-empty
raw text. -/
theorem loadLoop_definition (env : Env) :
    ∀ (fuel : Nat) (required queue : List String) (m : MessageType)
      (out : LoadOutcome) (proc : List String) (em : List (String × String)),
      loadLoop env fuel required queue m = some (out, proc, em) →
      out.state.definition = joinFrom m.definition em ∧ ∀ b ∈ em, b.2 ≠ "" := by
  intro fuel
  induction fuel with
  | zero => intro _ _ _ _ _ _ h; simp [loadLoop] at h
  | succ n ih =>
    intro required queue m out proc em h
    cases queue with
    | nil =>
      simp only [loadLoop, Option.some.injEq, Prod.mk.injEq] at h
      obtain ⟨h1, -, h3⟩ := h
      subst h1
      subst h3
      exact ⟨rfl, by simp⟩
    | cons currentType restQueue =>
      simp only [loadLoop] at h
      split at h
      · simp only [Option.some.injEq, Prod.mk.injEq] at h
        obtain ⟨h1, -, h3⟩ := h
        subst h1
        subst h3
        exact ⟨rfl, by simp⟩
      · rename_i messageDefinition hres
        split at h
        · split at h
          · exact absurd h (by simp)
          · rename_i out' proc' em' heq
            simp only [Option.some.injEq, Prod.mk.injEq] at h
            obtain ⟨h1, -, h3⟩ := h
            subst h1
            subst h3
            exact ih _ _ _ _ _ _ heq
        · rename_i hne
          split at h
          · exact absurd h (by simp)
          · rename_i out' proc' em' heq
            simp only [Option.some.injEq, Prod.mk.injEq] at h
            obtain ⟨h1, -, h3⟩ := h
            subst h1
            subst h3
            obtain ⟨ihd, ihne⟩ := ih _ _ _ _ _ _ heq
            constructor
            · rw [joinFrom_cons]
              rw [ihd]
              congr 1
              simp only [appendBlock]
              by_cases hd : m.definition.isEmpty <;> simp [hd]
            · intro b hb
              rcases List.mem_cons.mp hb with rfl | hb'
              · intro hc
                have hc2 : messageDefinition = "" := hc
                apply hne
                rw [hc2]
                rfl
              · exact ihne _ hb'

/-- Discovery-set invariant of the loop: when the pending queue has no
duplicates and is covered by the membership set, the processed-identifier
trace has no duplicates, every processed identifier was either already
pending or outside the set, and the emitted identifiers form a subsequence
of the processed ones. -/
theorem loadLoop_nodup (env : Env) :
    ∀ (fuel : Nat) (required queue : List String) (m : MessageType)
      (out : LoadOutcome) (proc : List String) (em : List (String × String)),
      loadLoop env fuel required queue m = some (out, proc, em) →
      queue.Nodup → (∀ t ∈ queue, t ∈ required) →
      proc.Nodup ∧ (∀ t ∈ proc, t ∈ queue ∨ t ∉ required) ∧
        (em.map Prod.fst).Sublist proc := by
  intro fuel
  induction fuel with
  | zero => intro _ _ _ _ _ _ h; simp [loadLoop] at h
  | succ n ih =>
    intro required queue m out proc em h hq hsub
    cases queue with
    | nil =>
      simp only [loadLoop, Option.some.injEq, Prod.mk.injEq] at h
      obtain ⟨-, h2, h3⟩ := h
      subst h2
      subst h3
      simp
    | cons currentType restQueue =>
      have hcur : currentType ∈ required := hsub _ (List.mem_cons_self _ _)
      have hrest : ∀ t ∈ restQueue, t ∈ required :=
        fun t ht => hsub _ (List.mem_cons_of_mem _ ht)
      have hqr : restQueue.Nodup := (List.nodup_cons.mp hq).2
      have hcnr : currentType ∉ restQueue := (List.nodup_cons.mp hq).1
      simp only [loadLoop] at h
      split at h
      · simp only [Option.some.injEq, Prod.mk.injEq] at h
        obtain ⟨-, h2, h3⟩ := h
        subst h2
        subst h3
        simp
      · rename_i messageDefinition hres
        split at h
        · split at h
          · exact absurd h (by simp)
          · rename_i out' proc' em' heq
            simp only [Option.some.injEq, Prod.mk.injEq] at h
            obtain ⟨-, h2, h3⟩ := h
            subst h2
            subst h3
            obtain ⟨ihn, ihm, ihs⟩ := ih _ _ _ _ _ _ heq hqr hrest
            refine ⟨List.nodup_cons.mpr ⟨?_, ihn⟩, ?_, ihs.cons _⟩
            · intro hmem
              rcases ihm _ hmem with hin | hout
              · exact hcnr hin
              · exact hout hcur
            · intro t ht
              rcases List.mem_cons.mp ht with rfl | ht'
              · exact Or.inl (List.mem_cons_self _ _)
              · rcases ihm _ ht' with hin | hout
                · exact Or.inl (List.mem_cons_of_mem _ hin)
                · exact Or.inr hout
        · rename_i hne
          split at h
          · exact absurd h (by simp)
          · rename_i out' proc' em' heq
            simp only [Option.some.injEq, Prod.mk.injEq] at h
            obtain ⟨-, h2, h3⟩ := h
            subst h2
            subst h3
            obtain ⟨news, hn1, hn2, hn3, hn4⟩ :=
              scanLines_spec env (getLines messageDefinition) required restQueue
            rw [hn1, hn2] at heq
            have hq' : (restQueue ++ news).Nodup := by
              refine List.nodup_append.mpr ⟨hqr, hn3, ?_⟩
              intro t htq htn
              exact hn4 _ htn (hrest _ htq)
            have hsub' : ∀ t ∈ restQueue ++ news, t ∈ required ++ news := by
              intro t ht
              rcases List.mem_append.mp ht with htq | htn
              · exact List.mem_append_left _ (hrest _ htq)
              · exact List.mem_append_right _ htn
            obtain ⟨ihn, ihm, ihs⟩ := ih _ _ _ _ _ _ heq hq' hsub'
            refine ⟨List.nodup_cons.mpr ⟨?_, ihn⟩, ?_, ?_⟩
            · intro hmem
              rcases ihm _ hmem with hin | hout
              · rcases List.mem_append.mp hin with hin1 | hin2
                · exact hcnr hin1
                · exact hn4 _ hin2 hcur
              · exact hout (List.mem_append_left _ hcur)
            · intro t ht
              rcases List.mem_cons.mp ht with rfl | ht'
              · exact Or.inl (List.mem_cons_self _ _)
              · rcases ihm _ ht' with hin | hout
                · rcases List.mem_append.mp hin with hin1 | hin2
                  · exact Or.inl (List.mem_cons_of_mem _ hin1)
                  · exact Or.inr (hn4 _ hin2)
                · exact Or.inr fun hr => hout (List.mem_append_left _ hr)
            · simpa using ihs.cons₂ currentType

/-- Appending the empty string on the right is the identity. -/
theorem string_append_empty (s : String) : s ++ "" = s := by
  cases s with
  | mk d =>
    show String.mk (d ++ []) = String.mk d
    rw [List.append_nil]

/-- String concatenation is associative. -/
theorem string_append_assoc (a b c : String) : a ++ b ++ c = a ++ (b ++ c) := by
  cases a with
  | mk da =>
    cases b with
    | mk db =>
      cases c with
      | mk dc =>
        show String.mk (da ++ db ++ dc) = String.mk (da ++ (db ++ dc))
        rw [List.append_assoc]

/-- A string different from the empty string has a false emptiness test. -/
theorem isEmpty_false_of_ne {s : String} (h : s ≠ "") : s.isEmpty = false := by
  rw [← Bool.not_eq_true]
  intro hc
  exact h ((String.isEmpty_iff s).mp hc)

/-- Starting from a non-empty accumulator, every block receives its
separator prefix. -/
theorem joinFrom_of_ne_empty :
    ∀ (blocks : List (String × String)) (acc : String), acc ≠ "" →
      joinFrom acc blocks = acc ++ tailBlocks blocks := by
  intro blocks
  induction blocks with
  | nil =>
    intro acc h
    show acc = acc ++ ""
    rw [string_append_empty]
  | cons b bs ih =>
    intro acc h
    rw [joinFrom_cons]
    have hab : appendBlock acc b = acc ++ sepBlock b.1 ++ b.2 := by
      simp [appendBlock, isEmpty_false_of_ne h]
    rw [hab]
    have hne : acc ++ sepBlock b.1 ++ b.2 ≠ "" :=
      string_append_ne_empty_left _ (string_append_ne_empty_left _ h)
    rw [ih _ hne]
    show acc ++ sepBlock b.1 ++ b.2 ++ tailBlocks bs =
      acc ++ (sepBlock b.1 ++ b.2 ++ tailBlocks bs)
    rw [string_append_assoc, string_append_assoc, string_append_assoc]

/-- Starting from the empty accumulator, the fold of `appendBlock` yields
the canonical block concatenation: first block bare, later blocks prefixed
by their separators. -/
theorem joinFrom_empty_eq_joinBlocks (blocks : List (String × String))
    (h : ∀ b ∈ blocks, b.2 ≠ "") :
    joinFrom "" blocks = joinBlocks blocks := by
  cases blocks with
  | nil => rfl
  | cons b bs =>
    rw [joinFrom_cons]
    have hab : appendBlock "" b = b.2 := rfl
    rw [hab]
    have hb2 : b.2 ≠ "" := h b (List.mem_cons_self _ _)
    cases bs with
    | nil =>
      show b.2 = b.2 ++ ""
      rw [string_append_empty]
    | cons c cs =>
      rw [joinFrom_of_ne_empty _ _ hb2]
      rfl

/-- A character list without a slash has no first slash. -/
theorem findFirstSlash_eq_none :
    ∀ {l : List Char}, '/' ∉ l → findFirstSlash l = none := by
  intro l
  induction l with
  | nil => intro _; rfl
  | cons c rest ih =>
    intro h
    have hc : (c == '/') = false := by
      refine beq_eq_false_iff_ne.mpr ?_
      intro hcc
      exact h (by simp [hcc])
    simp only [findFirstSlash, hc, if_false]
    rw [ih fun hm => h (List.mem_cons_of_mem _ hm)]
    rfl

/-- An identifier without a namespace separator is not split: the package
stays empty and the type is the whole identifier. -/
theorem splitType_no_slash {t : String} (h : '/' ∉ t.toList) :
    splitType t = ("", t) := by
  simp only [splitType, findFirstSlash_eq_none h]

/-- Any identifier that the split leaves unqualified and that is not the
reserved word `"Header"` makes `load` throw `InvalidMessageTypeException`
on its first iteration, leaving the object exactly as `clear()` set it. -/
theorem load_invalid_of_unqualified (env : Env) (fuel : Nat) (m : MessageType)
    (t : String) (hsplit : splitType t = ("", t)) (hnh : t ≠ "Header") :
    MessageType.load env (fuel + 1) m t =
      some (.err (.invalidMessageType t)
        { dataType := "", md5Sum := "*", definition := "" }, [], []) := by
  have hres : resolveType env t = .error (.invalidMessageType t) := by
    have hemp : ("" : String).isEmpty = true := rfl
    simp [resolveType, hsplit, hemp, hnh]
  simp [MessageType.load, loadLoop, hres, MessageType.clear]


/-- C1 (amended): whenever `load()` terminates by throwing, the identity
fields are exactly as the initial `clear()` left them — `dataType` is empty
and the signature is the wildcard token — while `definition` holds the text
accumulated for the types processed before the error, which need not be
empty; the object is not restored to its prior state. -/
theorem load_failure_state :
    ∀ (env : Env) (fuel : Nat) (m : MessageType) (messageDataType : String)
      (e : LoadError) (m2 : MessageType) (proc : List String)
      (em : List (String × String)),
      MessageType.load env fuel m messageDataType = some (.err e m2, proc, em) →
      m2.dataType = "" ∧ m2.md5Sum = "*" ∧ m2.definition = joinFrom "" em := by
  intro env fuel m messageDataType e m2 proc em h
  simp only [MessageType.load] at h
  split at h
  · exact absurd h (by simp)
  · rename_i e' m' proc' em' heq
    simp only [Option.some.injEq, Prod.mk.injEq, LoadOutcome.err.injEq] at h
    obtain ⟨⟨he, hm⟩, -, hem⟩ := h
    subst he
    subst hm
    subst hem
    have hf := loadLoop_frame env fuel _ _ _ _ _ _ heq
    have hd := loadLoop_definition env fuel _ _ _ _ _ _ heq
    simp only [LoadOutcome.state, MessageType.clear] at hf hd
    exact ⟨hf.1, hf.2, hd.1⟩
  · rename_i m' proc' em' heq
    simp only [Option.some.injEq, Prod.mk.injEq] at h
    obtain ⟨h1, -, -⟩ := h
    cases h1

/-- C9: `load()` never writes the signature field: every terminating run,
normal or throwing, leaves `md5Sum` equal to the wildcard token installed
by the initial `clear()`. -/
theorem load_md5Sum_wildcard :
    ∀ (env : Env) (fuel : Nat) (m : MessageType) (messageDataType : String)
      (out : LoadOutcome) (proc : List String) (em : List (String × String)),
      MessageType.load env fuel m messageDataType = some (out, proc, em) →
      out.state.md5Sum = "*" := by
  intro env fuel m messageDataType out proc em h
  simp only [MessageType.load] at h
  split at h
  · exact absurd h (by simp)
  · rename_i e' m' proc' em' heq
    simp only [Option.some.injEq, Prod.mk.injEq] at h
    obtain ⟨h1, -, -⟩ := h
    subst h1
    have hf := loadLoop_frame env fuel _ _ _ _ _ _ heq
    simpa [LoadOutcome.state, MessageType.clear] using hf.2
  · rename_i m' proc' em' heq
    simp only [Option.some.injEq, Prod.mk.injEq] at h
    obtain ⟨h1, -, -⟩ := h
    subst h1
    have hf := loadLoop_frame env fuel _ _ _ _ _ _ heq
    simp only [LoadOutcome.state, MessageType.clear] at hf ⊢
    by_cases hd : m'.definition.isEmpty <;> simp [hd, hf.2]

/-- C3: on every terminating `load()` run the processed-type trace contains
each identifier at most once, so each distinct identifier contributes at
most one block; the emitted identifiers are a duplicate-free subsequence of
that trace, in first-discovery order. -/
theorem load_trace_nodup :
    ∀ (env : Env) (fuel : Nat) (m : MessageType) (messageDataType : String)
      (out : LoadOutcome) (proc : List String) (em : List (String × String)),
      MessageType.load env fuel m messageDataType = some (out, proc, em) →
      proc.Nodup ∧ (em.map Prod.fst).Nodup ∧ (em.map Prod.fst).Sublist proc := by
  intro env fuel m messageDataType out proc em h
  simp only [MessageType.load] at h
  split at h
  · exact absurd h (by simp)
  · rename_i e' m' proc' em' heq
    simp only [Option.some.injEq, Prod.mk.injEq] at h
    obtain ⟨-, h2, h3⟩ := h
    subst h2
    subst h3
    obtain ⟨hn, -, hs⟩ :=
      loadLoop_nodup env fuel _ _ _ _ _ _ heq (by simp) (by simp)
    exact ⟨hn, hs.nodup hn, hs⟩
  · rename_i m' proc' em' heq
    simp only [Option.some.injEq, Prod.mk.injEq] at h
    obtain ⟨-, h2, h3⟩ := h
    subst h2
    subst h3
    obtain ⟨hn, -, hs⟩ :=
      loadLoop_nodup env fuel _ _ _ _ _ _ heq (by simp) (by simp)
    exact ⟨hn, hs.nodup hn, hs⟩

/-- C4: on every terminating `load()` run the resulting definition is the
concatenation of the emitted blocks in which the first (root) block carries
no leading separator and every later block is prefixed by the separator —
a newline, the 80-character rule line, a newline, and the marker line
carrying the block's fully qualified identifier — and every emitted block
is non-empty. -/
theorem load_definition_blocks :
    ∀ (env : Env) (fuel : Nat) (m : MessageType) (messageDataType : String)
      (out : LoadOutcome) (proc : List String) (em : List (String × String)),
      MessageType.load env fuel m messageDataType = some (out, proc, em) →
      out.state.definition = joinBlocks em ∧ ∀ b ∈ em, b.2 ≠ "" := by
  intro env fuel m messageDataType out proc em h
  simp only [MessageType.load] at h
  split at h
  · exact absurd h (by simp)
  · rename_i e' m' proc' em' heq
    simp only [Option.some.injEq, Prod.mk.injEq] at h
    obtain ⟨h1, -, h3⟩ := h
    subst h1
    subst h3
    obtain ⟨hdef, hne⟩ := loadLoop_definition env fuel _ _ _ _ _ _ heq
    simp only [LoadOutcome.state, MessageType.clear] at hdef ⊢
    exact ⟨hdef.trans (joinFrom_empty_eq_joinBlocks _ hne), hne⟩
  · rename_i m' proc' em' heq
    simp only [Option.some.injEq, Prod.mk.injEq] at h
    obtain ⟨h1, -, h3⟩ := h
    subst h1
    subst h3
    obtain ⟨hdef, hne⟩ := loadLoop_definition env fuel _ _ _ _ _ _ heq
    simp only [LoadOutcome.state, MessageType.clear] at hdef ⊢
    refine ⟨?_, hne⟩
    have hjoin := hdef.trans (joinFrom_empty_eq_joinBlocks _ hne)
    split
    · exact hjoin
    · exact hjoin

/-- Boolean emptiness test versus propositional equality with the empty
string. -/
theorem isEmpty_eq_false_iff (s : String) : s.isEmpty = false ↔ ¬ s = "" := by
  rw [Bool.eq_false_iff]
  exact not_congr (String.isEmpty_iff s)

/-- C2 (amended): `isValid()` is true iff the signature is non-empty and is
either the wildcard token or any 32-character string — the characters are
not checked for being hexadecimal — and `dataType` and `definition` are
non-empty. -/
theorem isValid_iff :
    ∀ m : MessageType,
      m.isValid = true ↔
        (m.md5Sum ≠ "" ∧ (m.md5Sum = "*" ∨ m.md5Sum.length = 32) ∧
          m.dataType ≠ "" ∧ m.definition ≠ "") := by
  intro m
  simp [MessageType.isValid, isEmpty_eq_false_iff, and_assoc]

/-- C7: `operator==` holds iff `dataType` and `md5Sum` both match — the
definition text is ignored — and `operator!=` is its exact negation. -/
theorem messageType_eq_iff :
    ∀ a b : MessageType,
      ((MessageType.beq a b = true) ↔
        (a.dataType = b.dataType ∧ a.md5Sum = b.md5Sum)) ∧
      MessageType.bne a b = !MessageType.beq a b := by
  intro a b
  constructor
  · simp [MessageType.beq]
  · simp only [MessageType.bne, MessageType.beq, bne]
    cases h1 : a.dataType == b.dataType <;> cases h2 : a.md5Sum == b.md5Sum <;> rfl

/-- C8: `advertise()` binds its publisher implementation exactly when the
message type is valid (an invalid type yields an inert unbound handle, not
an error), while `subscribe()` always binds. -/
theorem advertise_subscribe_validity :
    ∀ (m : MessageType) (topic : String) (queueSize : Nat) (latch : Bool),
      ((m.advertise topic queueSize latch).impl.isSome = m.isValid) ∧
      (m.subscribe topic queueSize).impl.isSome = true := by
  intro m topic queueSize latch
  constructor
  · cases h : m.isValid <;> simp [MessageType.advertise, h]
  · rfl

/-- C5: an identifier with no namespace separator other than `"Header"`
makes `load()` fail with `InvalidMessageTypeException`, while the bare
name `"Header"` is resolved exactly as its reserved qualification
`"std_msgs/Header"`. -/
theorem load_unqualified_name :
    ∀ env : Env,
      (∀ (t : String) (fuel : Nat) (m : MessageType),
        '/' ∉ t.toList → t ≠ "Header" →
        MessageType.load env (fuel + 1) m t =
          some (.err (.invalidMessageType t)
            { dataType := "", md5Sum := "*", definition := "" }, [], [])) ∧
      resolveType env "Header" = resolveType env "std_msgs/Header" := by
  intro env
  constructor
  · intro t fuel m hns hnh
    exact load_invalid_of_unqualified env fuel m t (splitType_no_slash hns) hnh
  · rfl

/-- C10: an identifier whose first character is the namespace separator is
not split (the split requires the separator at a position greater than
zero), so its bare name keeps the leading separator, never matches
`"Header"`, and `load()` throws `InvalidMessageTypeException`. -/
theorem load_leading_slash_invalid :
    ∀ (env : Env) (fuel : Nat) (m : MessageType) (t : String),
      t.toList.head? = some '/' →
      MessageType.load env (fuel + 1) m t =
        some (.err (.invalidMessageType t)
          { dataType := "", md5Sum := "*", definition := "" }, [], []) := by
  intro env fuel m t h
  obtain ⟨rest, hl⟩ : ∃ rest, t.toList = '/' :: rest := by
    cases hc : t.toList with
    | nil => rw [hc] at h; simp at h
    | cons c cs =>
      rw [hc] at h
      simp only [List.head?_cons, Option.some.injEq] at h
      exact ⟨cs, by rw [h]⟩
  have hdata : t.data = '/' :: rest := hl
  have hsplit : splitType t = ("", t) := by
    simp [splitType, String.toList, hdata, findFirstSlash]
  have hnh : t ≠ "Header" := by
    intro he
    rw [he] at hl
    have h2 : ("Header".toList).head? = (('/' : Char) :: rest).head? :=
      congrArg List.head? hl
    have h3 : some 'H' = some '/' := h2
    exact absurd (Option.some.inj h3) (by decide)
  exact load_invalid_of_unqualified env fuel m t hsplit hnh

/-- C6: a root whose definition text declares no new compound members
resolves to exactly its raw loaded text with no separator banner, and the
`dataType` is set to the root identifier. -/
theorem load_no_dependencies :
    ∀ (env : Env) (fuel : Nat) (m : MessageType) (root txt : String),
      resolveType env root = .ok txt → txt ≠ "" →
      scanLines env (getLines txt) [root] [] = ([root], []) →
      MessageType.load env (fuel + 2) m root =
        some (.ok { dataType := root, md5Sum := "*", definition := txt },
              [root], [(root, txt)]) := by
  intro env fuel m root txt hres hne hscan
  have hnemp : txt.isEmpty = false := isEmpty_false_of_ne hne
  have hemp : ("" : String).isEmpty = true := rfl
  simp [MessageType.load, loadLoop, MessageType.clear, hres, hscan, hnemp, hemp]


/-- Witness for C1 at a concrete failing resolution. -/
theorem load_failure_state_witness :
    (MessageType.mk "" "*" "other/B x\n").dataType = "" ∧
    (MessageType.mk "" "*" "other/B x\n").md5Sum = "*" ∧
    (MessageType.mk "" "*" "other/B x\n").definition =
      joinFrom "" [("pkg/A", "other/B x\n")] :=
  load_failure_state envC 2 (MessageType.mk "x" "y" "z") "pkg/A"
    (.packageNotFound "other") (MessageType.mk "" "*" "other/B x\n")
    ["pkg/A"] [("pkg/A", "other/B x\n")] rfl

/-- C1 counterexample: a root whose definition loads successfully but whose
dependency fails package resolution leaves the object with the root's text
still in `definition`, refuting the claim that a failed `load()` leaves the
definition empty with no partial state. -/
theorem load_failure_definition_cex :
    MessageType.load envC 2 (MessageType.mk "x" "y" "z") "pkg/A" =
      some (.err (.packageNotFound "other") (MessageType.mk "" "*" "other/B x\n"),
        ["pkg/A"], [("pkg/A", "other/B x\n")]) ∧
    ("other/B x\n" : String) ≠ "" :=
  ⟨rfl, by decide⟩

/-- C2 counterexample: a 32-character signature made of the letter z is not
hexadecimal, yet `isValid()` accepts it, because the code checks only the
length. -/
theorem isValid_nonhex_cex :
    MessageType.isValid (MessageType.mk "pkg/Type" md5NonHex "field") = true ∧
    specIsValid (MessageType.mk "pkg/Type" md5NonHex "field") = false :=
  ⟨by decide, by decide⟩

/-- Witness for C3: a root reaching the same nested type through two member
fields loads and emits it exactly once. -/
theorem load_trace_nodup_witness :
    (["pkg/A", "pkg/B"] : List String).Nodup ∧
    (([("pkg/A", "pkg/B x\npkg/B y\n"), ("pkg/B", "int32 z\n")].map
        Prod.fst).Nodup ∧
      ([("pkg/A", "pkg/B x\npkg/B y\n"), ("pkg/B", "int32 z\n")].map
        Prod.fst).Sublist ["pkg/A", "pkg/B"]) :=
  load_trace_nodup envD 3 (MessageType.mk "a" "b" "c") "pkg/A"
    (.ok (MessageType.mk "pkg/A" "*" defD)) ["pkg/A", "pkg/B"]
    [("pkg/A", "pkg/B x\npkg/B y\n"), ("pkg/B", "int32 z\n")] rfl

/-- Witness for C4 at a concrete two-type resolution. -/
theorem load_definition_blocks_witness :
    (LoadOutcome.ok (MessageType.mk "pkg/A" "*" defD)).state.definition =
      joinBlocks [("pkg/A", "pkg/B x\npkg/B y\n"), ("pkg/B", "int32 z\n")] ∧
    ∀ b ∈ [("pkg/A", "pkg/B x\npkg/B y\n"), ("pkg/B", "int32 z\n")],
      Prod.snd b ≠ "" :=
  load_definition_blocks envD 3 (MessageType.mk "a" "b" "c") "pkg/A"
    (.ok (MessageType.mk "pkg/A" "*" defD)) ["pkg/A", "pkg/B"]
    [("pkg/A", "pkg/B x\npkg/B y\n"), ("pkg/B", "int32 z\n")] rfl

/-- Witness for C5: the bare name Foo fails, the bare name Header follows
the reserved alias. -/
theorem load_unqualified_name_witness :
    MessageType.load envE 1 (MessageType.mk "a" "b" "c") "Foo" =
      some (.err (.invalidMessageType "Foo") (MessageType.mk "" "*" ""), [], []) ∧
    resolveType envE "Header" = resolveType envE "std_msgs/Header" :=
  ⟨(load_unqualified_name envE).1 "Foo" 0 (MessageType.mk "a" "b" "c")
      (by decide) (by decide),
    (load_unqualified_name envE).2⟩

/-- Witness for C6 at a concrete single-type resolution. -/
theorem load_no_dependencies_witness :
    MessageType.load envE 2 (MessageType.mk "a" "b" "c") "pkg/A" =
      some (.ok (MessageType.mk "pkg/A" "*" "int32 x\n"),
        ["pkg/A"], [("pkg/A", "int32 x\n")]) :=
  load_no_dependencies envE 0 (MessageType.mk "a" "b" "c") "pkg/A" "int32 x\n"
    rfl (by decide) rfl

/-- Witness for C9 at a concrete successful resolution. -/
theorem load_md5Sum_wildcard_witness :
    (LoadOutcome.ok (MessageType.mk "pkg/A" "*" defD)).state.md5Sum = "*" :=
  load_md5Sum_wildcard envD 3 (MessageType.mk "a" "b" "c") "pkg/A"
    (.ok (MessageType.mk "pkg/A" "*" defD)) ["pkg/A", "pkg/B"]
    [("pkg/A", "pkg/B x\npkg/B y\n"), ("pkg/B", "int32 z\n")] rfl

/-- Witness for C10 at an identifier with a leading separator. -/
theorem load_leading_slash_invalid_witness :
    MessageType.load envE 1 (MessageType.mk "a" "b" "c") "/Header" =
      some (.err (.invalidMessageType "/Header") (MessageType.mk "" "*" ""),
        [], []) :=
  load_leading_slash_invalid envE 0 (MessageType.mk "a" "b" "c") "/Header"
    (by decide)

end VariantTopicTools
